import Mathlib

/-!
Verification development for the `dasp` dynamic argumentation-framework engine
(`src/lib`).  The Rust sources are shallowly embedded below: pure functions
become Lean functions, the stateful clingo session becomes explicit state
passing over a `Control` value, and fallible code returns `Except Error`.

The external clingo engine itself is out of scope of the repository (it is an
opaque collaborator); it is modelled as
  * a list of grounded `SymbolicAtom`s carried by the `Control`, and
  * an opaque `search` oracle mapping the current atom state to the stream of
    models the resumable solve handle will yield.
-/

namespace Dasp

/-- Truth values assignable to external atoms
(`clingo::TruthValue::{True, False, Free}`). -/
inductive TruthValue where
  | tru
  | fls
  | free
deriving DecidableEq, Repr

/-- Clingo symbols (`clingo::Symbol`), restricted to the shapes the embedded
code constructs: function symbols applied to quoted string arguments
(`Symbol::create_function` over `Symbol::create_string`s), and bare quoted
strings. -/
inductive Symbol where
  | func (name : String) (args : List String)
  | str (s : String)
deriving DecidableEq, Repr

/-- Rendering of a symbol, mirroring clingo's `Symbol::to_string`:
strings are printed with surrounding double quotes. -/
def Symbol.render : Symbol → String
  | .func name args =>
      name ++ "(" ++ String.intercalate "," (args.map fun a => "\"" ++ a ++ "\"") ++ ")"
  | .str s => "\"" ++ s ++ "\""

instance : ToString Symbol := ⟨Symbol.render⟩

/-- A grounded symbolic atom of the clingo control
(`clingo::SymbolicAtom`): its symbol, whether it was declared `#external`,
its solver literal, and the current truth assignment of that literal. -/
structure SymbolicAtom where
  symbol : Symbol
  isExternal : Bool
  literal : Nat
  truth : TruthValue
deriving DecidableEq, Repr

/-- A model produced by the engine (`clingo::Model`), reduced to the shown
symbols, which is all `Extension::from_model` reads from it. -/
structure Model where
  shown : List Symbol
deriving DecidableEq, Repr

/-- Errors of the embedded library (`src/lib/src/error.rs`).  Parser errors
are collapsed to the message-free variants the claims need. -/
inductive Error where
  | Clingo (msg : String)
  | Parser
  | Logic (msg : String)
  | ClingoNotInitialized
deriving DecidableEq, Repr

/-- The clingo control handle (`clingo::GenericControl`): the grounded atoms
together with the engine's opaque search oracle.  The oracle maps the current
atom state to the stream of results the resumable solve handle will produce;
entries may be engine faults (`Except.error`). -/
structure Control where
  atoms : List SymbolicAtom
  search : List SymbolicAtom → List (Except Error Model)

/-- Assign a truth value to the external atom with the given solver literal
(`clingo::GenericControl::assign_external`). -/
def Control.assign_external (ctl : Control) (lit : Nat) (v : TruthValue) : Control :=
  { ctl with
    atoms := ctl.atoms.map fun a => if a.literal = lit then { a with truth := v } else a }

/-- Look up a symbolic atom by its symbol, mirroring the
`symbolic_atoms()?.iter()?.find(...)` pattern of the sources. -/
def Control.findAtom (ctl : Control) (needle : Symbol) : Option SymbolicAtom :=
  ctl.atoms.find? fun a => a.symbol == needle

namespace symbols

/-- An argument of the framework
(`src/lib/src/argumentation_framework/symbols.rs`, the `id`/`optional`
variant constructed throughout `parser/` and `mod.rs`):
an id string plus the optional marker. -/
structure Argument where
  id : String
  optional : Bool
deriving DecidableEq, Repr

/-- An attack of the framework: ordered pair of argument ids plus the
optional marker. -/
structure Attack where
  from_ : String
  to_ : String
  optional : Bool
deriving DecidableEq, Repr

/-- Clingo symbol of an argument, used as the lookup needle by
`enable_argument`/`disable_argument` in `mod.rs`.
Modelled from the spec: the `ToSymbol` impl for this symbols variant is not
under `src/`; per spec §6 the engine is queried by
`find_symbol(predicate_name, args)`, and the id alone identifies the element
(spec §3: identity is the id, the optional flag is not part of identity). -/
def Argument.symbol (a : Argument) : Symbol :=
  .func "argument" [a.id]

/-- Clingo symbol of an attack, used as the lookup needle by
`enable_attack`/`disable_attack` in `mod.rs`.
Modelled from the spec, as for `Argument.symbol`. -/
def Attack.symbol (t : Attack) : Symbol :=
  .func "attack" [t.from_, t.to_]

end symbols

/-- An update to the `ArgumentationFramework`
(`src/lib/src/argumentation_framework/mod.rs`, `enum Patch`). -/
inductive Patch where
  | EnableArgument (a : symbols.Argument)
  | DisableArgument (a : symbols.Argument)
  | EnableAttack (t : symbols.Attack)
  | DisableAttack (t : symbols.Attack)
deriving DecidableEq, Repr

/-- Mirror of Rust's `str::trim_matches('"')`: strip all leading and trailing
double-quote characters. -/
def trimQuotes (s : String) : String :=
  String.mk (((s.data.dropWhile (· = '"')).reverse.dropWhile (· = '"')).reverse)

/-- An extension of an `ArgumentationFramework` (`mod.rs`, `struct Extension`):
the set of included arguments.  The Rust `BTreeSet` is embedded as the list of
decoded atoms; the claims below only read membership. -/
structure Extension where
  atoms : List symbols.Argument
deriving DecidableEq, Repr

/-- Decode a model into an extension (`Extension::from_model`): every shown
symbol is rendered to a string, surrounding double quotes are trimmed, and the
result becomes an `Argument` with `optional := false`. -/
def Extension.from_model (m : Model) : Extension :=
  { atoms := m.shown.map fun symbol =>
      { id := trimQuotes symbol.render, optional := false } }

/-- Equality of arguments as used by `BTreeSet::<Argument>::contains`.
Modelled from the spec: the `Ord`/`Eq` derive of this symbols variant is not
under `src/`; spec §3 states "Equality and ordering are by `id` only.  Two
arguments are the same entity iff their ids match, regardless of optional
flag". -/
def sameArgument (a b : symbols.Argument) : Bool :=
  a.id == b.id

/-- Membership check of `GenericExtension for Extension`
(`mod.rs`, `fn contains`): `self.atoms.contains(arg)`. -/
def Extension.contains (e : Extension) (arg : symbols.Argument) : Bool :=
  e.atoms.any fun b => sameArgument b arg

/-- The global `ID_COUNTER` (`mod.rs`, `pub struct Counter(AtomicUsize)`),
embedded as a plain natural number. -/
abbrev Counter := Nat

/-- Mirror of `Counter::new`: the counter starts at 0. -/
def Counter.new : Counter := 0

/-- Mirror of `Counter::next` (`fetch_add(1)`): returns the current value and
the incremented counter state. -/
def Counter.next (c : Counter) : Nat × Counter := (c, c + 1)

/-- The resumable solve handle (`clingo::GenericSolveHandle`), created by
`ctl.solve(SolveMode::YIELD, &[])`.  It stashes the control it was created
from (`close` recycles it) and the pending stream of search results the
engine's oracle produced. -/
structure SolveHandle where
  ctl : Control
  pending : List (Except Error Model)

/-- Mirror of `GenericControl::solve(SolveMode::YIELD, &[])`: the control is
consumed into a resumable handle whose result stream is the engine's opaque
search over the current atoms. -/
def Control.solve (ctl : Control) : SolveHandle :=
  { ctl := ctl, pending := ctl.search ctl.atoms }

/-- Mirror of `GenericSolveHandle::close`: the handle is consumed and the
underlying control is recovered, ready for a new solve.  The engine itself is
opaque (spec §6: `close() -> Result<ReusableControl>`), so closing is modelled
as the pure return of ownership. -/
def SolveHandle.close (h : SolveHandle) : Control := h.ctl

/-- Iterator over extensions (`mod.rs`, `struct ExtensionIter`). -/
structure ExtensionIter where
  handle : SolveHandle

/-- Dung's argumentation framework (`mod.rs`,
`struct ArgumentationFramework<S>`): the optional clingo control.  The global
`ID_COUNTER` is carried alongside as explicit program state. -/
structure ArgumentationFramework where
  clingo_ctl : Option Control
  counter : Counter

/-- Mirror of `ArgumentationFramework::assume_control`: the control, or
`Error::ClingoNotInitialized` when it is checked out. -/
def ArgumentationFramework.assume_control (af : ArgumentationFramework) :
    Except Error Control :=
  match af.clingo_ctl with
  | some ctl => .ok ctl
  | none => .error .ClingoNotInitialized

namespace clingo

/-- Modelled from the spec: `clingo::enable_argument(ctl, literal)` is called
by `ArgumentationFramework::enable_argument` but is not under `src/`.  Per
spec §4.3 (external-toggle design) enabling an element assigns its external
toggle the truth value true. -/
def enable_argument (ctl : Control) (lit : Nat) : Control :=
  ctl.assign_external lit .tru

/-- Modelled from the spec: `clingo::disable_argument(ctl, literal)` is not
under `src/`; disabling assigns the external toggle the truth value false. -/
def disable_argument (ctl : Control) (lit : Nat) : Control :=
  ctl.assign_external lit .fls

/-- Modelled from the spec: `clingo::enable_attack(ctl, literal)` is not under
`src/`; as for arguments. -/
def enable_attack (ctl : Control) (lit : Nat) : Control :=
  ctl.assign_external lit .tru

/-- Modelled from the spec: `clingo::disable_attack(ctl, literal)` is not
under `src/`; as for arguments. -/
def disable_attack (ctl : Control) (lit : Nat) : Control :=
  ctl.assign_external lit .fls

/-- Mirror of `CLINGO_SYMBOL_ARG_EXTERNAL`
(`src/lib/src/argumentation_framework/clingo.rs`). -/
def CLINGO_SYMBOL_ARG_EXTERNAL : String := "arg_"

/-- Mirror of `CLINGO_SYMBOL_ATT_EXTERNAL` (`clingo.rs`). -/
def CLINGO_SYMBOL_ATT_EXTERNAL : String := "att_"

/-- Name of a symbol (`clingo::Symbol::name`); bare strings have no function
name and yield the empty string (the source would error there, but every atom
the embedded code inspects is a function symbol). -/
def symbolName : Symbol → String
  | .func name _ => name
  | .str _ => ""

/-- Mirror of `enable_all_external_args_and_attacks` (`clingo.rs`): iterate
the symbolic atoms, keep the external ones whose name is `arg_` or `att_`,
and assign each of their literals `TruthValue::True`. -/
def enable_all_external_args_and_attacks (ctl : Control) : Control :=
  ((ctl.atoms.filter fun atom => atom.isExternal).filter fun atom =>
      symbolName atom.symbol == CLINGO_SYMBOL_ARG_EXTERNAL ||
      symbolName atom.symbol == CLINGO_SYMBOL_ATT_EXTERNAL).foldl
    (fun c atom => c.assign_external atom.literal .tru) ctl

/-- Modelled from the spec: the atom set that grounding
(`add_facts` + `ground_all_parts` with the semantics' program, `clingo.rs`)
leaves in the control.  The program text `S::PROGRAM` is not under `src/`;
per spec §3/§4.3 (external-toggle design) every loaded element contributes a
fact atom, and every element marked optional additionally contributes a
truth-valued external toggle atom named `arg_`/`att_` over its identifying
strings.  External atoms start unassigned-false (clingo externals default to
false) until a truth value is assigned. -/
def ground_all_parts (args : List symbols.Argument) (attacks : List symbols.Attack) :
    List SymbolicAtom :=
  let facts : List Symbol :=
    (args.map fun a => Symbol.func "arg" [a.id]) ++
      (attacks.map fun t => Symbol.func "att" [t.from_, t.to_])
  let externals : List Symbol :=
    ((args.filter fun a => a.optional).map fun a =>
        Symbol.func CLINGO_SYMBOL_ARG_EXTERNAL [a.id]) ++
      ((attacks.filter fun t => t.optional).map fun t =>
        Symbol.func CLINGO_SYMBOL_ATT_EXTERNAL [t.from_, t.to_])
  (facts.map fun s => (s, false)) ++ (externals.map fun s => (s, true))
    |>.enum.map fun (i, (s, ext)) =>
      { symbol := s, isExternal := ext, literal := i,
        truth := if ext then .fls else .tru }

/-- Mirror of `initialize_backend` (`clingo.rs`): build the control, add the
semantics program and the facts, ground, then — per the source comment
"We start with all arguments and attacks enabled" — assign every external
`arg_`/`att_` toggle `TruthValue::True`.  The engine's search behaviour stays
an opaque oracle parameter. -/
def initialize_backend (args : List symbols.Argument) (attacks : List symbols.Attack)
    (search : List SymbolicAtom → List (Except Error Model)) : Control :=
  let ctl : Control := { atoms := ground_all_parts args attacks, search := search }
  enable_all_external_args_and_attacks ctl

/-- Mirror of `disable_external_argument_symbol` (`clingo.rs`): find the
external `arg_(<id>)` atom; when present, the source assigns its literal
`TruthValue::True` (sic — the assigned value in the source is `True`); when
absent it only logs a warning and returns `Ok`. -/
def disable_external_argument_symbol (ctl : Control) (argument : symbols.Argument) :
    Control :=
  let requested_symbol := Symbol.func CLINGO_SYMBOL_ARG_EXTERNAL [argument.id]
  match ctl.findAtom requested_symbol with
  | some atom => ctl.assign_external atom.literal .tru
  | none => ctl

/-- Mirror of `disable_external_attack_symbol` (`clingo.rs`): find the
external `att_(<from>,<to>)` atom; when present, the source assigns its
literal `TruthValue::True` (sic); when absent it only logs a warning and
returns `Ok`. -/
def disable_external_attack_symbol (ctl : Control) (attack : symbols.Attack) :
    Control :=
  let requested_symbol :=
    Symbol.func CLINGO_SYMBOL_ATT_EXTERNAL [attack.from_, attack.to_]
  match ctl.findAtom requested_symbol with
  | some atom => ctl.assign_external atom.literal .tru
  | none => ctl

end clingo

/-- Truth assignment currently held by the external toggle of an optional
argument: `some` of the assigned value when the `arg_(<id>)` toggle atom
exists. -/
def argToggleTruth (ctl : Control) (id : String) : Option TruthValue :=
  (ctl.findAtom (Symbol.func clingo.CLINGO_SYMBOL_ARG_EXTERNAL [id])).map
    fun atom => atom.truth

/-- Truth assignment currently held by the external toggle of an optional
attack. -/
def attToggleTruth (ctl : Control) (from_ to_ : String) : Option TruthValue :=
  (ctl.findAtom (Symbol.func clingo.CLINGO_SYMBOL_ATT_EXTERNAL [from_, to_])).map
    fun atom => atom.truth

/-- An element is Alive for solving exactly when its toggle is assigned
true (spec §3 lifecycle states; facts of non-optional elements are
unconditionally true). -/
def TruthValue.isAlive : TruthValue → Bool
  | .tru => true
  | .fls => false
  | .free => false

/-- Mirror of `ArgumentationFramework::enable_argument` (`mod.rs`): look the
argument's symbol up among the symbolic atoms, fail with `Error::Logic` if it
is absent, otherwise enable its literal. -/
def ArgumentationFramework.enable_argument (af : ArgumentationFramework)
    (argument : symbols.Argument) : Except Error ArgumentationFramework :=
  let symbol_needle := argument.symbol
  match af.assume_control with
  | .error why => .error why
  | .ok ctl =>
    match ctl.findAtom symbol_needle with
    | none =>
        .error (.Logic ("The argument " ++ toString symbol_needle ++
          " was not defined as optional and cannot be enabled now"))
    | some target =>
        .ok { af with clingo_ctl := some (clingo.enable_argument ctl target.literal) }

/-- Mirror of `ArgumentationFramework::disable_argument` (`mod.rs`). -/
def ArgumentationFramework.disable_argument (af : ArgumentationFramework)
    (argument : symbols.Argument) : Except Error ArgumentationFramework :=
  let symbol_needle := argument.symbol
  match af.assume_control with
  | .error why => .error why
  | .ok ctl =>
    match ctl.findAtom symbol_needle with
    | none =>
        .error (.Logic ("The argument " ++ toString symbol_needle ++
          " was not defined as optional and cannot be disabled now"))
    | some target =>
        .ok { af with clingo_ctl := some (clingo.disable_argument ctl target.literal) }

/-- Mirror of `ArgumentationFramework::enable_attack` (`mod.rs`). -/
def ArgumentationFramework.enable_attack (af : ArgumentationFramework)
    (attack : symbols.Attack) : Except Error ArgumentationFramework :=
  let symbol_needle := attack.symbol
  match af.assume_control with
  | .error why => .error why
  | .ok ctl =>
    match ctl.findAtom symbol_needle with
    | none =>
        .error (.Logic ("The attack " ++ toString symbol_needle ++
          " was not defined as optional and cannot be enabled now"))
    | some target =>
        .ok { af with clingo_ctl := some (clingo.enable_attack ctl target.literal) }

/-- Mirror of `ArgumentationFramework::disable_attack` (`mod.rs`). -/
def ArgumentationFramework.disable_attack (af : ArgumentationFramework)
    (attack : symbols.Attack) : Except Error ArgumentationFramework :=
  let symbol_needle := attack.symbol
  match af.assume_control with
  | .error why => .error why
  | .ok ctl =>
    match ctl.findAtom symbol_needle with
    | none =>
        .error (.Logic ("The attack " ++ toString symbol_needle ++
          " was not defined as optional and cannot be disabled now"))
    | some target =>
        .ok { af with clingo_ctl := some (clingo.disable_attack ctl target.literal) }

/-- Mirror of `ArgumentationFramework::apply_patch` (`mod.rs`): dispatch on
the patch variant. -/
def ArgumentationFramework.apply_patch (af : ArgumentationFramework)
    (patch : Patch) : Except Error ArgumentationFramework :=
  match patch with
  | .EnableArgument argument => af.enable_argument argument
  | .DisableArgument argument => af.disable_argument argument
  | .EnableAttack attack => af.enable_attack attack
  | .DisableAttack attack => af.disable_attack attack

/-- Mirror of `Framework::enumerate_extensions` for `ArgumentationFramework`
(`mod.rs`): take the control out of the framework (`clingo_ctl.take()`),
start a resumable solve, and hand the iterator out inside a guard.  The
source panics (`expect`) when the control is absent; that exit is modelled as
`Error::ClingoNotInitialized`. -/
def ArgumentationFramework.enumerate_extensions (af : ArgumentationFramework) :
    Except Error (ExtensionIter × ArgumentationFramework) :=
  match af.clingo_ctl with
  | none => .error .ClingoNotInitialized
  | some ctl => .ok ({ handle := ctl.solve }, { af with clingo_ctl := none })

/-- Mirror of `Framework::drop_extension_iter` for `ArgumentationFramework`
(`mod.rs`): close the handle and store the recovered control back into
`clingo_ctl`. -/
def ArgumentationFramework.drop_extension_iter (af : ArgumentationFramework)
    (iter : ExtensionIter) : ArgumentationFramework :=
  { af with clingo_ctl := some iter.handle.close }

/-- Mirror of `IterGuard::drop` (`src/lib/src/framework/iter_guard.rs`): the
guard unconditionally hands the iterator back via `drop_extension_iter`.  In
the embedding the guard is the pair of the borrowed framework state and the
iterator, and dropping it is the only way to recover the framework. -/
def IterGuard.drop (af : ArgumentationFramework) (iter : ExtensionIter) :
    ArgumentationFramework :=
  af.drop_extension_iter iter

/-- Mirror of `FallibleIterator::next` for `ExtensionIter` (`mod.rs`): resume
the search; a produced model is decoded into an extension, exhaustion yields
`none` (and keeps yielding `none`), an engine fault is surfaced as an
error. -/
def ExtensionIter.next (iter : ExtensionIter) :
    Except Error (Option Extension) × ExtensionIter :=
  match iter.handle.pending with
  | [] => (.ok none, iter)
  | .ok model :: rest =>
      (.ok (some (Extension.from_model model)),
       { iter with handle := { iter.handle with pending := rest } })
  | .error why :: rest =>
      (.error why,
       { iter with handle := { iter.handle with pending := rest } })

/-- Iterator state after calling `next` a given number of times (used to
quantify over every reachable iterator state). -/
def ExtensionIter.stepN (iter : ExtensionIter) : Nat → ExtensionIter
  | 0 => iter
  | k + 1 => (iter.next.2).stepN k

/-- Loop of `FallibleIterator::any` over the pending stream.  Each equation is
one outcome of `ExtensionIter.next` (produced model / exhaustion / engine
fault): stop with `true` at the first item satisfying the predicate, with
`false` at exhaustion, and surface the first engine fault. -/
def anyAux (ctl : Control) (f : Extension → Bool) :
    List (Except Error Model) → Except Error Bool × ExtensionIter
  | [] => (.ok false, { handle := { ctl := ctl, pending := [] } })
  | .ok model :: rest =>
      if f (Extension.from_model model) then
        (.ok true, { handle := { ctl := ctl, pending := rest } })
      else anyAux ctl f rest
  | .error why :: rest =>
      (.error why, { handle := { ctl := ctl, pending := rest } })

/-- Loop of `FallibleIterator::all` over the pending stream, dual to
`anyAux`: stop with `false` at the first item refuting the predicate, with
`true` at exhaustion, and surface the first engine fault. -/
def allAux (ctl : Control) (f : Extension → Bool) :
    List (Except Error Model) → Except Error Bool × ExtensionIter
  | [] => (.ok true, { handle := { ctl := ctl, pending := [] } })
  | .ok model :: rest =>
      if f (Extension.from_model model) then allAux ctl f rest
      else (.ok false, { handle := { ctl := ctl, pending := rest } })
  | .error why :: rest =>
      (.error why, { handle := { ctl := ctl, pending := rest } })

/-- Mirror of `FallibleIterator::any` called on the extension iterator: the
loop drives `next` until the first satisfying item, exhaustion, or fault. -/
def ExtensionIter.anyLoop (iter : ExtensionIter) (f : Extension → Bool) :
    Except Error Bool × ExtensionIter :=
  anyAux iter.handle.ctl f iter.handle.pending

/-- Mirror of `FallibleIterator::all` called on the extension iterator. -/
def ExtensionIter.allLoop (iter : ExtensionIter) (f : Extension → Bool) :
    Except Error Bool × ExtensionIter :=
  allAux iter.handle.ctl f iter.handle.pending

/-- Mirror of the `Framework::is_credulous_accepted` default method
(`src/lib/src/framework/mod.rs`):
`self.enumerate_extensions()?.any(|ext| Ok(ext.contains(arg)))`, built only
from repeated `next` calls; the guard returns the handle when it drops at the
end of the call. -/
def ArgumentationFramework.is_credulous_accepted (af : ArgumentationFramework)
    (arg : symbols.Argument) : Except Error Bool × ArgumentationFramework :=
  match af.enumerate_extensions with
  | .error why => (.error why, af)
  | .ok (iter, af') =>
      let (res, iter') := iter.anyLoop fun ext => ext.contains arg
      (res, IterGuard.drop af' iter')

/-- Mirror of the `Framework::is_skeptical_accepted` default method
(`src/lib/src/framework/mod.rs`):
`self.enumerate_extensions()?.all(|ext| Ok(ext.contains(arg)))`. -/
def ArgumentationFramework.is_skeptical_accepted (af : ArgumentationFramework)
    (arg : symbols.Argument) : Except Error Bool × ArgumentationFramework :=
  match af.enumerate_extensions with
  | .error why => (.error why, af)
  | .ok (iter, af') =>
      let (res, iter') := iter.allLoop fun ext => ext.contains arg
      (res, IterGuard.drop af' iter')

/-- Generic parser error (`src/lib/src/framework/mod.rs`, `enum ParserError`);
the found/expected/position payloads carried by the source are irrelevant to
the claims and are dropped. -/
inductive ParserError where
  | UnexpectedToken
  | UnexpectedEndOfInput
deriving DecidableEq, Repr

/-- Whitespace skipped by the `apxm` lexer (`#[regex(r"[ \r\n]+", skip)]`). -/
def isWsChar (c : Char) : Bool := c == ' ' || c == '\r' || c == '\n'

/-- First character of a `Text` token (`[a-z]` of the logos regex). -/
def isIdHeadChar (c : Char) : Bool := 'a' ≤ c && c ≤ 'z'

/-- Continuation character of a `Text` token (`[a-zA-Z0-9_-]`). -/
def isIdChar (c : Char) : Bool :=
  isIdHeadChar c || ('A' ≤ c && c ≤ 'Z') || ('0' ≤ c && c ≤ '9') || c == '_' || c == '-'

namespace apxm

/-- Tokens of the APXM update-line lexer
(`src/lib/src/argumentation_framework/parser/apxm.rs`, `enum Token`). -/
inductive Token where
  | Arg
  | Attack
  | Colon
  | Comma
  | Error
  | LeftParen
  | Minus
  | Optional
  | Period
  | Plus
  | RightParen
  | Text (s : String)
deriving DecidableEq, Repr

/-- Classify a maximal identifier word as logos does: the literal tokens
`arg`/`att`/`opt` win over the `Text` regex at equal length, any other word
is `Text`. -/
def keywordOrText (w : String) : Token :=
  if w == "arg" then .Arg
  else if w == "att" then .Attack
  else if w == "opt" then .Optional
  else .Text w

/-- Single-character literal tokens of the APXM lexer; any character that is
neither whitespace, nor a word head, nor one of these literals becomes the
logos `Error` token. -/
def litToken : Char → Token
  | '(' => .LeftParen
  | ')' => .RightParen
  | ':' => .Colon
  | ',' => .Comma
  | '.' => .Period
  | '+' => .Plus
  | '-' => .Minus
  | _ => .Error

/-- Maximal-munch lexer of the APXM token set, with explicit fuel (one unit
per consumed leading character; `tokenizeL` supplies enough).  Whitespace is
skipped, identifier words are read maximally and classified by
`keywordOrText`, other characters map through `litToken`. -/
def tokenizeFuel : Nat → List Char → List Token
  | 0, _ => []
  | _ + 1, [] => []
  | fuel + 1, c :: rest =>
    if isWsChar c then tokenizeFuel fuel rest
    else if isIdHeadChar c then
      keywordOrText (String.mk (c :: rest.takeWhile isIdChar)) ::
        tokenizeFuel fuel (rest.dropWhile isIdChar)
    else
      litToken c :: tokenizeFuel fuel rest

/-- Lexing a character list: fuel is the input length, which suffices since
every step consumes at least one character. -/
def tokenizeL (cs : List Char) : List Token := tokenizeFuel cs.length cs

/-- Mirror of `AddDel` (`apxm.rs`/`tgfm.rs`): whether the line enables or
disables. -/
inductive AddDel where
  | Add
  | Del
deriving DecidableEq, Repr

/-- Mirror of `AddDel::arg`. -/
def AddDel.arg : AddDel → symbols.Argument → Patch
  | .Add, a => .EnableArgument a
  | .Del, a => .DisableArgument a

/-- Mirror of `AddDel::att`. -/
def AddDel.att : AddDel → symbols.Attack → Patch
  | .Add, t => .EnableAttack t
  | .Del, t => .DisableAttack t

/-- Mirror of `expect(lex, token)` (`parser/mod.rs`): consume exactly the
expected token. -/
def expect (ts : List Token) (expected : Token) : Except ParserError (List Token) :=
  match ts with
  | t :: rest => if t == expected then .ok rest else .error .UnexpectedToken
  | [] => .error .UnexpectedEndOfInput

/-- Mirror of `expect(lex, Token::Text)` followed by `lex.slice()`: consume a
`Text` token and return its characters. -/
def expectText (ts : List Token) : Except ParserError (String × List Token) :=
  match ts with
  | .Text s :: rest => .ok (s, rest)
  | _ :: _ => .error .UnexpectedToken
  | [] => .error .UnexpectedEndOfInput

/-- Mirror of `parse_arg_singleton` (`apxm.rs`): `(<id>)`. -/
def parse_arg_singleton (ts : List Token) :
    Except ParserError (symbols.Argument × List Token) := do
  let ts ← expect ts .LeftParen
  let (id, ts) ← expectText ts
  let ts ← expect ts .RightParen
  .ok ({ id := id, optional := false }, ts)

/-- Mirror of `parse_att_tuple` (`apxm.rs`): `(<from>,<to>)`. -/
def parse_att_tuple (ts : List Token) :
    Except ParserError (symbols.Attack × List Token) := do
  let ts ← expect ts .LeftParen
  let (from_, ts) ← expectText ts
  let ts ← expect ts .Comma
  let (to_, ts) ← expectText ts
  let ts ← expect ts .RightParen
  .ok ({ from_ := from_, to_ := to_, optional := false }, ts)

/-- Mirror of `parse_patch` (`apxm.rs`): an `arg` singleton or an `att`
tuple, turned into a patch by the line's `AddDel` sign. -/
def parse_patch (add_del : AddDel) (ts : List Token) :
    Except ParserError (Patch × List Token) :=
  match ts with
  | .Arg :: rest => (parse_arg_singleton rest).map fun (a, ts') => (add_del.arg a, ts')
  | .Attack :: rest => (parse_att_tuple rest).map fun (t, ts') => (add_del.att t, ts')
  | _ :: _ => .error .UnexpectedToken
  | [] => .error .UnexpectedEndOfInput

/-- Mirror of `parse_add_del` (`apxm.rs`): the leading `+`/`-` sign. -/
def parse_add_del (ts : List Token) : Except ParserError (AddDel × List Token) :=
  match ts with
  | .Plus :: rest => .ok (.Add, rest)
  | .Minus :: rest => .ok (.Del, rest)
  | _ :: _ => .error .UnexpectedToken
  | [] => .error .UnexpectedEndOfInput

/-- Loop of `parse_line` (`apxm.rs`): after the first patch, a colon leads to
another patch and a period ends the line (tokens after the period are
discarded by the source's `break`).  Fuel decreases once per iteration;
`parse_line` supplies the token count, which suffices since every iteration
consumes at least the colon. -/
def parse_line_loop (add_del : AddDel) :
    Nat → List Token → Except ParserError (List Patch)
  | _, .Period :: _ => .ok []
  | _, [] => .error .UnexpectedEndOfInput
  | fuel + 1, .Colon :: rest => do
      let (patch, ts') ← parse_patch add_del rest
      let patches ← parse_line_loop add_del fuel ts'
      .ok (patch :: patches)
  | 0, .Colon :: _ => .error .UnexpectedEndOfInput
  | _, _ :: _ => .error .UnexpectedToken

/-- Mirror of `parse_line` (`apxm.rs`): lex the input, read the sign, read
the first patch, then the colon-chain until the closing period. -/
def parse_line (input : String) : Except ParserError (List Patch) := do
  let ts := tokenizeL input.data
  let (add_del, ts) ← parse_add_del ts
  let (patch, ts) ← parse_patch add_del ts
  let patches ← parse_line_loop add_del ts.length ts
  .ok (patch :: patches)

end apxm

namespace tgfm

/-- Tokens of the TGFM update-line lexer
(`src/lib/src/argumentation_framework/parser/tgfm.rs`, `enum Token`). -/
inductive Token where
  | Colon
  | Error
  | Minus
  | Plus
  | Text (s : String)
  | Whitespace
deriving DecidableEq, Repr

/-- Maximal-munch lexer of the TGFM token set with explicit fuel:
`[\r\n]+` is skipped, a run of spaces is one `Whitespace` token,
`[a-z][a-zA-Z0-9_-]*` is `Text`, `+`/`-`/`:` are literals, anything else is
the logos `Error` token. -/
def tokenizeFuel : Nat → List Char → List Token
  | 0, _ => []
  | _ + 1, [] => []
  | fuel + 1, c :: rest =>
    if c == '\r' || c == '\n' then tokenizeFuel fuel rest
    else if c == ' ' then
      Token.Whitespace :: tokenizeFuel fuel (rest.dropWhile (· == ' '))
    else if isIdHeadChar c then
      Token.Text (String.mk (c :: rest.takeWhile isIdChar)) ::
        tokenizeFuel fuel (rest.dropWhile isIdChar)
    else
      (match c with
       | ':' => Token.Colon
       | '+' => Token.Plus
       | '-' => Token.Minus
       | _ => Token.Error) :: tokenizeFuel fuel rest

/-- Lexing a character list; fuel as in `apxm.tokenizeL`. -/
def tokenizeL (cs : List Char) : List Token := tokenizeFuel cs.length cs

/-- Mirror of `parse_add_del` (`tgfm.rs`). -/
def parse_add_del (ts : List Token) : Except ParserError (apxm.AddDel × List Token) :=
  match ts with
  | .Plus :: rest => .ok (.Add, rest)
  | .Minus :: rest => .ok (.Del, rest)
  | _ :: _ => .error .UnexpectedToken
  | [] => .error .UnexpectedEndOfInput

/-- Mirror of `parse_argument` (`tgfm.rs`): a `Text` token as argument. -/
def parse_argument (ts : List Token) :
    Except ParserError (symbols.Argument × List Token) :=
  match ts with
  | .Text s :: rest => .ok ({ id := s, optional := false }, rest)
  | _ :: _ => .error .UnexpectedToken
  | [] => .error .UnexpectedEndOfInput

/-- Mirror of `parse_patch` (`tgfm.rs`): one id is an argument patch, two ids
separated by whitespace are an attack patch; each patch ends at a colon or at
the end of input. -/
def parse_patch (add_del : apxm.AddDel) (ts : List Token) :
    Except ParserError (Patch × List Token) := do
  let (arg, ts) ← parse_argument ts
  match ts with
  | [] => .ok (add_del.arg arg, [])
  | .Colon :: rest => .ok (add_del.arg arg, rest)
  | .Whitespace :: rest => do
      let (to_, ts') ← parse_argument rest
      match ts' with
      | [] => .ok (add_del.att { from_ := arg.id, to_ := to_.id, optional := false }, [])
      | .Colon :: rest' =>
          .ok (add_del.att { from_ := arg.id, to_ := to_.id, optional := false }, rest')
      | _ :: _ => .error .UnexpectedToken
  | _ :: _ => .error .UnexpectedToken

/-- Loop of `parse_line` (`tgfm.rs`): parse patches while input remains.
Fuel decreases once per iteration; the token count suffices since every
iteration consumes at least one token. -/
def parse_line_loop (add_del : apxm.AddDel) :
    Nat → List Token → Except ParserError (List Patch)
  | _, [] => .ok []
  | fuel + 1, ts@(_ :: _) => do
      let (patch, ts') ← parse_patch add_del ts
      let patches ← parse_line_loop add_del fuel ts'
      .ok (patch :: patches)
  | 0, _ :: _ => .error .UnexpectedEndOfInput

/-- Mirror of `parse_line` (`tgfm.rs`). -/
def parse_line (input : String) : Except ParserError (List Patch) := do
  let ts := tokenizeL input.data
  let (add_del, ts) ← parse_add_del ts
  parse_line_loop add_del ts.length ts

end tgfm

/-- Mirror of `parse_apxm_tgfm_patch_line` (`parser/mod.rs`): try the APXM
parser, fall back to TGFM on failure. -/
def parse_apxm_tgfm_patch_line (input : String) : Except ParserError (List Patch) :=
  match apxm.parse_line input with
  | .ok patches => .ok patches
  | .error _ => tgfm.parse_line input

/-- Loop of `Framework::update`'s
`fallible_iterator::convert(...).for_each(|patch| self.apply_patch(&patch))`:
apply patches left to right, stop at the first failure and keep the state the
earlier patches produced. -/
def applyAll (af : ArgumentationFramework) :
    List Patch → Option Error × ArgumentationFramework
  | [] => (none, af)
  | patch :: rest =>
      match af.apply_patch patch with
      | .ok af' => applyAll af' rest
      | .error why => (some why, af)

/-- Mirror of `Framework::update` for `ArgumentationFramework` (`mod.rs`):
parse the whole line first (`parse_apxm_tgfm_patch_line(update_line)?`), then
apply the parsed patches in order. -/
def ArgumentationFramework.update (af : ArgumentationFramework)
    (update_line : String) : Option Error × ArgumentationFramework :=
  match parse_apxm_tgfm_patch_line update_line with
  | .error _ => (some .Parser, af)
  | .ok patches => applyAll af patches

/-!
Embedding of the Admissible semantics
(`src/lib/src/argumentation_framework/semantics/mod.rs`, the `THEORY`
program of `impl ArgumentationFrameworkSemantic for Admissible`), at a fixed
revision with no `delete` facts.  The program guesses a subset via the even
`in`/`out` loop and prunes it with two constraints; its answer sets are
therefore exactly the argument subsets passing both checks below, with
`defeated` and `not_defended` the least fixed points of their (negation-free
in `in`) defining rules.
-/

/-- Rule `defeated(X) :- in(Y), attack(Y, X).`: the argument `x` is defeated
by the chosen set. -/
def defeated (atts : List (String × String)) (S : List String) (x : String) : Bool :=
  S.any fun y => atts.contains (y, x)

/-- Rule `not_defended(X) :- attack(Y, X), not defeated(Y).`: the argument
`x` has an attacker the chosen set does not defeat. -/
def not_defended (atts : List (String × String)) (S : List String) (x : String) : Bool :=
  atts.any fun e => e.2 == x && !(defeated atts S e.1)

/-- Constraint `:- in(X), in(Y), attack(X, Y).`: the chosen set contains an
internal attack. -/
def hasConflict (atts : List (String × String)) (S : List String) : Bool :=
  S.any fun x => S.any fun y => atts.contains (x, y)

/-- Answer-set characterisation of the Admissible `THEORY` program: the
chosen set ranges over the arguments (`in(X) :- not out(X), argument(X).`),
is conflict-free, and contains no argument that is not defended
(`:- in(X), not_defended(X).`). -/
def isAdmissibleSet (args : List String) (atts : List (String × String))
    (S : List String) : Bool :=
  S.all (args.contains ·) && !(hasConflict atts S) &&
    S.all fun x => !(not_defended atts S x)

/-- Valid characters for a `Text` identifier: nonempty, `[a-z]` head,
`[a-zA-Z0-9_-]` continuation. -/
def validIdChars (s : String) : Bool :=
  match s.data with
  | [] => false
  | c :: t => isIdHeadChar c && t.all isIdChar

/-- A string lexing as a single `Text` token: valid identifier characters
and not one of the keywords `arg`/`att`/`opt` (which logos lexes as their
literal tokens). -/
def validId (s : String) : Bool :=
  validIdChars s && !(s == "arg" || s == "att" || s == "opt")

/-- One chained attack enabler of an explicit-format update line:
`:att(<from>,<to>)`. -/
def renderAttChainItem (ft : String × String) : String :=
  ":att(" ++ ft.1 ++ "," ++ ft.2 ++ ")"

/-- Concatenation of the chained attack enablers of a line. -/
def renderAttChain : List (String × String) → String
  | [] => ""
  | ft :: rest => renderAttChainItem ft ++ renderAttChain rest

/-- Explicit-format new-argument chain line:
`+arg(<id>):att(<from>,<to>):...`. -/
def renderEnableArgChain (id : String) (atts : List (String × String)) : String :=
  "+arg(" ++ id ++ ")" ++ renderAttChain atts ++ "."

/-- Explicit-format argument disabler line: `-arg(<id>).`. -/
def renderDisableArgLine (id : String) : String :=
  "-arg(" ++ id ++ ")."

/-- Explicit-format attack enabler line: `+att(<from>,<to>).`. -/
def renderEnableAttLine (f t : String) : String :=
  "+att(" ++ f ++ "," ++ t ++ ")."

/-- Explicit-format attack disabler line: `-att(<from>,<to>).`. -/
def renderDisableAttLine (f t : String) : String :=
  "-att(" ++ f ++ "," ++ t ++ ")."

/-- Token image of one chained attack enabler. -/
def attChainTokens (atts : List (String × String)) : List apxm.Token :=
  atts.flatMap fun ft =>
    [.Colon, .Attack, .LeftParen, .Text ft.1, .Comma, .Text ft.2, .RightParen]

/-- Target lookup symbol of a patch: the symbol `apply_patch`'s branch
searches the symbolic atoms for. -/
def Patch.targetSymbol : Patch → Symbol
  | .EnableArgument a => a.symbol
  | .DisableArgument a => a.symbol
  | .EnableAttack t => t.symbol
  | .DisableAttack t => t.symbol

/-!  Concrete instances used by the closed witness and counterexample
theorems below. -/

/-- An engine oracle producing no models. -/
def emptySearch : List SymbolicAtom → List (Except Error Model) := fun _ => []

/-- A control with no atoms and no models. -/
def ctlC1 : Control := { atoms := [], search := emptySearch }

/-- A freshly initialised framework holding `ctlC1`. -/
def afC1 : ArgumentationFramework := { clingo_ctl := some ctlC1, counter := Counter.new }

/-- Control state of a loaded framework with arguments `a`, `b`, the optional
attack `a -> b` and the optional argument `a`, both currently Alive (their
external toggles are assigned true). -/
def ctlC2 : Control :=
  { atoms :=
      [ { symbol := .func "arg" ["a"], isExternal := false, literal := 0, truth := .tru },
        { symbol := .func "arg" ["b"], isExternal := false, literal := 1, truth := .tru },
        { symbol := .func "att" ["a", "b"], isExternal := false, literal := 2, truth := .tru },
        { symbol := .func "arg_" ["a"], isExternal := true, literal := 3, truth := .tru },
        { symbol := .func "att_" ["a", "b"], isExternal := true, literal := 4, truth := .tru } ],
    search := emptySearch }

/-- Initial framework input of one optional argument `a` and one non-optional
argument `b`. -/
def argsC3 : List symbols.Argument :=
  [ { id := "a", optional := true }, { id := "b", optional := false } ]

/-- A control whose only atom is the external `argument("a")`. -/
def ctlC4 : Control :=
  { atoms := [ { symbol := .func "argument" ["a"], isExternal := true, literal := 0,
                 truth := .tru } ],
    search := emptySearch }

/-- A freshly loaded framework holding `ctlC4` (revision counter 0). -/
def afC4 : ArgumentationFramework := { clingo_ctl := some ctlC4, counter := Counter.new }

/-- A patch whose target exists in `ctlC4`. -/
def patchC4 : Patch := .DisableArgument { id := "a", optional := true }

/-- The framework state `apply_patch` produces from `afC4` and `patchC4`. -/
def afC4a : ArgumentationFramework :=
  match afC4.apply_patch patchC4 with
  | .ok af => af
  | .error _ => afC4

/-- The same control as `ctlC2` but with both external toggles currently
assigned false (elements Dead). -/
def ctlC2dead : Control :=
  { atoms :=
      [ { symbol := .func "arg" ["a"], isExternal := false, literal := 0, truth := .tru },
        { symbol := .func "arg" ["b"], isExternal := false, literal := 1, truth := .tru },
        { symbol := .func "att" ["a", "b"], isExternal := false, literal := 2, truth := .tru },
        { symbol := .func "arg_" ["a"], isExternal := true, literal := 3, truth := .fls },
        { symbol := .func "att_" ["a", "b"], isExternal := true, literal := 4, truth := .fls } ],
    search := emptySearch }

/-- A framework whose control has no atoms at all. -/
def afC5 : ArgumentationFramework :=
  { clingo_ctl := some { atoms := [], search := emptySearch }, counter := Counter.new }

/-- Two models, one showing `"b"` and one showing `"a"`. -/
def modelsC7 : List Model := [ { shown := [.str "b"] }, { shown := [.str "a"] } ]

/-- A control whose oracle yields `modelsC7` faultlessly. -/
def ctlC7 : Control := { atoms := [], search := fun _ => modelsC7.map .ok }

/-- A framework holding `ctlC7`. -/
def afC7 : ArgumentationFramework := { clingo_ctl := some ctlC7, counter := Counter.new }

/-- The queried argument `a`. -/
def argC7 : symbols.Argument := { id := "a", optional := false }

/-- A control whose only atom is the external `argument("a")`, still dead. -/
def ctlC9 : Control :=
  { atoms := [ { symbol := .func "argument" ["a"], isExternal := true, literal := 0,
                 truth := .fls } ],
    search := emptySearch }

/-- A framework holding `ctlC9`. -/
def afC9 : ArgumentationFramework := { clingo_ctl := some ctlC9, counter := Counter.new }

/-- First patch of the update line `+arg(a):att(a,b).`: applies cleanly to
`afC9`. -/
def patchC9good : Patch := .EnableArgument { id := "a", optional := false }

/-- Second patch of the same line: its target does not exist in `afC9`. -/
def patchC9bad : Patch := .EnableAttack { from_ := "a", to_ := "b", optional := false }

/-- State after the successful prefix of the line. -/
def afC9a : ArgumentationFramework := (applyAll afC9 [patchC9good]).2

/-- The error the failing patch produces from `afC9a`. -/
def whyC9 : Error :=
  match afC9a.apply_patch patchC9bad with
  | .error why => why
  | .ok _ => .Parser

end Dasp

namespace Dasp

theorem next_snd_ctl (iter : ExtensionIter) : (iter.next.2).handle.ctl = iter.handle.ctl := by
  cases h : iter.handle.pending with
  | nil => simp [ExtensionIter.next, h]
  | cons hd rest => cases hd <;> simp [ExtensionIter.next, h]

theorem stepN_ctl (iter : ExtensionIter) (k : Nat) :
    ((iter.stepN k).handle).ctl = iter.handle.ctl := by
  induction k generalizing iter with
  | zero => rfl
  | succ k ih => rw [ExtensionIter.stepN, ih, next_snd_ctl]

/-- C1: for every `ExtensionIterator` created by `enumerate_extensions`, when
its guard is dropped from any state — after any number of `next` calls,
covering draining, mid-stream errors and early abandonment — the underlying
solving handle is returned to the framework (`clingo_ctl` becomes `Some` of
the original control again), and the framework can begin a new enumeration
immediately after the release. -/
theorem C1_guard_drop_returns_handle (af : ArgumentationFramework) (ctl : Control)
    (hc : af.clingo_ctl = some ctl) (k : Nat) :
    ∃ iter af1, af.enumerate_extensions = .ok (iter, af1) ∧
      af1.clingo_ctl = none ∧
      (IterGuard.drop af1 (iter.stepN k)).clingo_ctl = some ctl ∧
      ∃ iter2 af2,
        (IterGuard.drop af1 (iter.stepN k)).enumerate_extensions = .ok (iter2, af2) := by
  refine ⟨{ handle := ctl.solve }, { af with clingo_ctl := none }, ?_, rfl, ?_, ?_⟩
  · simp [ArgumentationFramework.enumerate_extensions, hc]
  · simp [IterGuard.drop, ArgumentationFramework.drop_extension_iter, SolveHandle.close,
      stepN_ctl, Control.solve]
  · exact ⟨_, _, rfl⟩

/-- Witness for C1 at the concrete framework `afC1`, dropping the guard after
two `next` calls. -/
theorem C1_guard_drop_returns_handle_witness :
    afC1.clingo_ctl = some ctlC1 ∧
    (∃ iter af1, afC1.enumerate_extensions = .ok (iter, af1) ∧
      af1.clingo_ctl = none ∧
      (IterGuard.drop af1 (iter.stepN 2)).clingo_ctl = some ctlC1 ∧
      ∃ iter2 af2,
        (IterGuard.drop af1 (iter.stepN 2)).enumerate_extensions = .ok (iter2, af2)) :=
  ⟨rfl, C1_guard_drop_returns_handle afC1 ctlC1 rfl 2⟩

/-- C2 (code bug): `disable_external_attack_symbol` and
`disable_external_argument_symbol` are meant to flip the element's external
toggle so it becomes Dead, but the source assigns `TruthValue::True`; at this
concrete Alive attack and Alive argument the toggles still hold true — the
elements stay Alive — after the disable call. -/
theorem C2_disable_leaves_element_alive :
    attToggleTruth
        (clingo.disable_external_attack_symbol ctlC2
          { from_ := "a", to_ := "b", optional := true }) "a" "b" = some .tru ∧
    argToggleTruth
        (clingo.disable_external_argument_symbol ctlC2
          { id := "a", optional := true }) "a" = some .tru ∧
    attToggleTruth
        (clingo.disable_external_attack_symbol ctlC2dead
          { from_ := "a", to_ := "b", optional := true }) "a" "b" = some .tru ∧
    TruthValue.isAlive .tru = true := by
  refine ⟨?_, ?_, ?_, rfl⟩ <;> rfl

/-- C3 (code bug): immediately after `initialize_backend` (revision 0), the
optional argument `a` is Alive — its external toggle was assigned true by
`enable_all_external_args_and_attacks` ("We start with all arguments and
attacks enabled") — while the claim and the repository's own tests require
optional elements to start Dead.  The non-optional `b` is Alive as a fact. -/
theorem C3_optional_elements_start_alive :
    argToggleTruth (clingo.initialize_backend argsC3 [] emptySearch) "a" = some .tru ∧
    TruthValue.isAlive .tru = true ∧
    ((clingo.initialize_backend argsC3 [] emptySearch).findAtom
        (.func "arg" ["b"])).map (fun atom => atom.truth) = some .tru := by
  exact ⟨rfl, rfl, rfl⟩

/-- C4 (counterexample): after one successfully applied patch the revision
counter `ID_COUNTER` still reads 0, not 1 — `apply_patch` never advances
it. -/
theorem C4_counter_not_incremented_counterexample :
    (afC4.apply_patch patchC4).map (fun af => af.counter) = .ok 0 ∧ (0 : Nat) ≠ 1 := by
  exact ⟨rfl, by decide⟩

theorem enable_argument_counter (af : ArgumentationFramework) (a : symbols.Argument)
    (af' : ArgumentationFramework) (h : af.enable_argument a = .ok af') :
    af'.counter = af.counter := by
  simp only [ArgumentationFramework.enable_argument] at h
  cases hac : af.assume_control with
  | error why => rw [hac] at h; exact absurd h (by simp)
  | ok ctl =>
    rw [hac] at h
    cases hfind : ctl.findAtom a.symbol with
    | none =>
      simp only [hfind] at h
      exact absurd h (by simp)
    | some target =>
      simp only [hfind, Except.ok.injEq] at h
      rw [h.symm]

theorem disable_argument_counter (af : ArgumentationFramework) (a : symbols.Argument)
    (af' : ArgumentationFramework) (h : af.disable_argument a = .ok af') :
    af'.counter = af.counter := by
  simp only [ArgumentationFramework.disable_argument] at h
  cases hac : af.assume_control with
  | error why => rw [hac] at h; exact absurd h (by simp)
  | ok ctl =>
    rw [hac] at h
    cases hfind : ctl.findAtom a.symbol with
    | none =>
      simp only [hfind] at h
      exact absurd h (by simp)
    | some target =>
      simp only [hfind, Except.ok.injEq] at h
      rw [h.symm]

theorem enable_attack_counter (af : ArgumentationFramework) (t : symbols.Attack)
    (af' : ArgumentationFramework) (h : af.enable_attack t = .ok af') :
    af'.counter = af.counter := by
  simp only [ArgumentationFramework.enable_attack] at h
  cases hac : af.assume_control with
  | error why => rw [hac] at h; exact absurd h (by simp)
  | ok ctl =>
    rw [hac] at h
    cases hfind : ctl.findAtom t.symbol with
    | none =>
      simp only [hfind] at h
      exact absurd h (by simp)
    | some target =>
      simp only [hfind, Except.ok.injEq] at h
      rw [h.symm]

theorem disable_attack_counter (af : ArgumentationFramework) (t : symbols.Attack)
    (af' : ArgumentationFramework) (h : af.disable_attack t = .ok af') :
    af'.counter = af.counter := by
  simp only [ArgumentationFramework.disable_attack] at h
  cases hac : af.assume_control with
  | error why => rw [hac] at h; exact absurd h (by simp)
  | ok ctl =>
    rw [hac] at h
    cases hfind : ctl.findAtom t.symbol with
    | none =>
      simp only [hfind] at h
      exact absurd h (by simp)
    | some target =>
      simp only [hfind, Except.ok.injEq] at h
      rw [h.symm]

/-- C4 (amended): the counter starts at 0 and each `Counter::next` call
increments it by exactly 1, but `apply_patch` never invokes it — after N
successfully applied patches the framework's counter is unchanged (still 0
from the initial load). -/
theorem C4_counter_constant_under_patches :
    Counter.new = 0 ∧
    (∀ c : Counter, Counter.next c = (c, c + 1)) ∧
    (∀ (af : ArgumentationFramework) (patch : Patch) (af' : ArgumentationFramework),
      af.apply_patch patch = .ok af' → af'.counter = af.counter) := by
  refine ⟨rfl, fun c => rfl, fun af patch af' h => ?_⟩
  cases patch with
  | EnableArgument a => exact enable_argument_counter af a af' h
  | DisableArgument a => exact disable_argument_counter af a af' h
  | EnableAttack t => exact enable_attack_counter af t af' h
  | DisableAttack t => exact disable_attack_counter af t af' h

/-- Witness for the C4 amended theorem at the concrete framework `afC4`. -/
theorem C4_counter_constant_under_patches_witness :
    Counter.new = 0 ∧ Counter.next 3 = (3, 4) ∧ afC4a.counter = afC4.counter :=
  ⟨C4_counter_constant_under_patches.1,
   C4_counter_constant_under_patches.2.1 3,
   C4_counter_constant_under_patches.2.2 afC4 patchC4 afC4a rfl⟩

/-- C5: for every patch (enable or disable, argument or attack) whose target
symbol is not among the framework's symbolic atoms, `apply_patch` returns an
`Error::Logic` — never a silent no-op success. -/
theorem C5_unknown_target_is_error (af : ArgumentationFramework) (ctl : Control)
    (patch : Patch) (hc : af.clingo_ctl = some ctl)
    (habs : ∀ atom ∈ ctl.atoms, atom.symbol ≠ patch.targetSymbol) :
    ∃ msg, af.apply_patch patch = .error (.Logic msg) := by
  have hfind : ctl.findAtom patch.targetSymbol = none := by
    rw [Control.findAtom, List.find?_eq_none]
    intro a ha
    simpa using habs a ha
  cases patch with
  | EnableArgument a =>
    simp only [Patch.targetSymbol] at hfind
    refine ⟨"The argument " ++ toString a.symbol ++ " was not defined as optional and cannot be enabled now", ?_⟩
    simp only [ArgumentationFramework.apply_patch,
      ArgumentationFramework.enable_argument, ArgumentationFramework.assume_control, hc, hfind]
  | DisableArgument a =>
    simp only [Patch.targetSymbol] at hfind
    refine ⟨"The argument " ++ toString a.symbol ++ " was not defined as optional and cannot be disabled now", ?_⟩
    simp only [ArgumentationFramework.apply_patch,
      ArgumentationFramework.disable_argument, ArgumentationFramework.assume_control, hc, hfind]
  | EnableAttack t =>
    simp only [Patch.targetSymbol] at hfind
    refine ⟨"The attack " ++ toString t.symbol ++ " was not defined as optional and cannot be enabled now", ?_⟩
    simp only [ArgumentationFramework.apply_patch,
      ArgumentationFramework.enable_attack, ArgumentationFramework.assume_control, hc, hfind]
  | DisableAttack t =>
    simp only [Patch.targetSymbol] at hfind
    refine ⟨"The attack " ++ toString t.symbol ++ " was not defined as optional and cannot be disabled now", ?_⟩
    simp only [ArgumentationFramework.apply_patch,
      ArgumentationFramework.disable_attack, ArgumentationFramework.assume_control, hc, hfind]

/-- Witness for C5: enabling the nonexistent attack `a -> b` on the concrete
empty framework `afC5` errors. -/
theorem C5_unknown_target_is_error_witness :
    ∃ msg, afC5.apply_patch (.EnableAttack { from_ := "a", to_ := "b", optional := false }) =
      .error (.Logic msg) :=
  C5_unknown_target_is_error afC5 { atoms := [], search := emptySearch }
    (.EnableAttack { from_ := "a", to_ := "b", optional := false }) rfl
    (by intro atom h; simp at h)

/-- C6: for the framework with arguments `a1, a2, a3` and attacks
`a1 -> a3, a2 -> a3, a3 -> a2`, the answer sets of the Admissible `THEORY`
program — the subsets passing its conflict-freeness and defendedness
checks — are exactly `{}`, `{a1}`, `{a2}` and `{a1,a2}`, each exactly once
(the enumeration of candidate subsets is duplicate-free). -/
theorem C6_simple_admissible_af :
    (([ "a1", "a2", "a3" ].sublists).filter
        (isAdmissibleSet ["a1", "a2", "a3"] [("a1", "a3"), ("a2", "a3"), ("a3", "a2")])) =
      [[], ["a1"], ["a2"], ["a1", "a2"]] ∧
    ([ "a1", "a2", "a3" ].sublists).Nodup := by
  constructor
  · rfl
  · decide

/-- C10 (counterexample): the decoded extension of a model showing `"a"`
holds the argument `a` with `optional := false`, yet `Extension::contains`
returns `true` — not `false` — for the query argument `a` with
`optional := true`, because argument identity is the id alone. -/
theorem C10_contains_ignores_optional_counterexample :
    (Extension.from_model { shown := [.str "a"] }).atoms =
      [{ id := "a", optional := false }] ∧
    (Extension.from_model { shown := [.str "a"] }).contains
      { id := "a", optional := true } = true := by
  exact ⟨rfl, rfl⟩

/-- C10 (amended): every argument of an extension decoded from a model has
`optional = false` and carries a shown symbol's rendering stripped of
surrounding double quotes as id; `Extension::contains` compares arguments by
id only, so it holds exactly when some decoded atom has the queried id —
regardless of the query's optional flag. -/
theorem C10_from_model_and_contains (m : Model) (arg : symbols.Argument) :
    (∀ b ∈ (Extension.from_model m).atoms,
      b.optional = false ∧ ∃ s ∈ m.shown, b.id = trimQuotes s.render) ∧
    ((Extension.from_model m).contains arg = true ↔
      ∃ b ∈ (Extension.from_model m).atoms, b.id = arg.id) := by
  constructor
  · intro b hb
    simp only [Extension.from_model, List.mem_map] at hb
    obtain ⟨s, hs, rfl⟩ := hb
    exact ⟨rfl, s, hs, rfl⟩
  · simp [Extension.contains, sameArgument, List.any_eq_true]

theorem anyAux_map_ok (ctl : Control) (p : Extension → Bool) (ms : List Model) :
    anyAux ctl p (ms.map .ok) =
      (.ok ((ms.map Extension.from_model).any p),
       { handle :=
          { ctl := ctl,
            pending :=
              (ms.drop ((ms.map Extension.from_model).findIdx p + 1)).map .ok } }) := by
  induction ms with
  | nil => simp [anyAux]
  | cons m rest ih =>
    by_cases h : p (Extension.from_model m)
    · simp [anyAux, h, List.findIdx_cons]
    · simp [anyAux, h, ih, List.findIdx_cons]

theorem allAux_map_ok (ctl : Control) (p : Extension → Bool) (ms : List Model) :
    allAux ctl p (ms.map .ok) =
      (.ok ((ms.map Extension.from_model).all p),
       { handle :=
          { ctl := ctl,
            pending :=
              (ms.drop ((ms.map Extension.from_model).findIdx
                (fun e => !(p e)) + 1)).map .ok } }) := by
  induction ms with
  | nil => simp [allAux]
  | cons m rest ih =>
    by_cases h : p (Extension.from_model m)
    · simp [allAux, h, ih, List.findIdx_cons]
    · simp [allAux, h, List.findIdx_cons]

/-- C7: when the engine produces the fault-free model stream `ms`,
`is_credulous_accepted arg` returns `Ok(true)` precisely when some decoded
extension contains `arg`, `is_skeptical_accepted arg` returns `Ok(false)`
precisely when some decoded extension does not contain `arg`, and both are
computed only by driving the extension iterator: the `any`/`all` loops stop
right after the first deciding extension, leaving exactly the models past it
unconsumed. -/
theorem C7_acceptance_checks (af : ArgumentationFramework) (ctl : Control)
    (ms : List Model) (arg : symbols.Argument)
    (hc : af.clingo_ctl = some ctl) (hs : ctl.search ctl.atoms = ms.map .ok) :
    ((af.is_credulous_accepted arg).1 =
        .ok ((ms.map Extension.from_model).any fun ext => ext.contains arg)) ∧
    (((af.is_credulous_accepted arg).1 = .ok true) ↔
        ∃ ext ∈ ms.map Extension.from_model, ext.contains arg) ∧
    (({ handle := ctl.solve } : ExtensionIter).anyLoop (fun ext => ext.contains arg) =
        (.ok ((ms.map Extension.from_model).any fun ext => ext.contains arg),
         { handle :=
            { ctl := ctl,
              pending := (ms.drop ((ms.map Extension.from_model).findIdx
                (fun ext => ext.contains arg) + 1)).map .ok } })) ∧
    ((af.is_skeptical_accepted arg).1 =
        .ok ((ms.map Extension.from_model).all fun ext => ext.contains arg)) ∧
    (((af.is_skeptical_accepted arg).1 = .ok false) ↔
        ∃ ext ∈ ms.map Extension.from_model, ¬ ext.contains arg) ∧
    (({ handle := ctl.solve } : ExtensionIter).allLoop (fun ext => ext.contains arg) =
        (.ok ((ms.map Extension.from_model).all fun ext => ext.contains arg),
         { handle :=
            { ctl := ctl,
              pending := (ms.drop ((ms.map Extension.from_model).findIdx
                (fun ext => !(ext.contains arg)) + 1)).map .ok } })) := by
  have hsolve : ctl.solve = { ctl := ctl, pending := ms.map .ok } := by
    simp [Control.solve, hs]
  have hcred : (af.is_credulous_accepted arg).1 =
      .ok ((ms.map Extension.from_model).any fun ext => ext.contains arg) := by
    simp [ArgumentationFramework.is_credulous_accepted,
      ArgumentationFramework.enumerate_extensions, hc, hsolve,
      ExtensionIter.anyLoop, anyAux_map_ok]
  have hskep : (af.is_skeptical_accepted arg).1 =
      .ok ((ms.map Extension.from_model).all fun ext => ext.contains arg) := by
    simp [ArgumentationFramework.is_skeptical_accepted,
      ArgumentationFramework.enumerate_extensions, hc, hsolve,
      ExtensionIter.allLoop, allAux_map_ok]
  refine ⟨hcred, ?_, ?_, hskep, ?_, ?_⟩
  · rw [hcred]
    simp [List.any_eq_true]
  · rw [hsolve]
    simp [ExtensionIter.anyLoop, anyAux_map_ok]
  · rw [hskep]
    simp only [Except.ok.injEq, ← Bool.not_eq_true, List.all_eq_true]
    push_neg
    rfl
  · rw [hsolve]
    simp [ExtensionIter.allLoop, allAux_map_ok]

/-- Witness for C7 at the concrete framework `afC7`, whose engine stream
holds a model without `a` followed by a model with `a`. -/
theorem C7_acceptance_checks_witness :
    ((afC7.is_credulous_accepted argC7).1 =
        .ok ((modelsC7.map Extension.from_model).any fun ext => ext.contains argC7)) ∧
    (((afC7.is_skeptical_accepted argC7).1 = .ok false) ↔
        ∃ ext ∈ modelsC7.map Extension.from_model, ¬ ext.contains argC7) :=
  ⟨(C7_acceptance_checks afC7 ctlC7 modelsC7 argC7 rfl rfl).1,
   (C7_acceptance_checks afC7 ctlC7 modelsC7 argC7 rfl rfl).2.2.2.2.1⟩

theorem ws_false_of_idHead {c : Char} (h : isIdHeadChar c = true) : isWsChar c = false := by
  cases hc : isWsChar c with
  | false => rfl
  | true =>
    exfalso
    simp only [isWsChar, Bool.or_eq_true, beq_iff_eq] at hc
    simp only [isIdHeadChar, Bool.and_eq_true, decide_eq_true_eq] at h
    rcases hc with (hc | hc) | hc <;> subst hc <;> exact absurd h.1 (by decide)

theorem takeWhile_append_eq {α} (p : α → Bool) (l1 l2 : List α)
    (h1 : ∀ x ∈ l1, p x = true) (h2 : ∀ y, l2.head? = some y → p y = false) :
    (l1 ++ l2).takeWhile p = l1 := by
  induction l1 with
  | nil =>
    cases l2 with
    | nil => rfl
    | cons y t => simp [List.takeWhile_cons, h2 y rfl]
  | cons x t ih =>
    rw [List.cons_append, List.takeWhile_cons, if_pos (h1 x (List.mem_cons_self x t))]
    rw [ih (fun z hz => h1 z (List.mem_cons_of_mem x hz))]

theorem dropWhile_append_eq {α} (p : α → Bool) (l1 l2 : List α)
    (h1 : ∀ x ∈ l1, p x = true) (h2 : ∀ y, l2.head? = some y → p y = false) :
    (l1 ++ l2).dropWhile p = l2 := by
  induction l1 with
  | nil =>
    cases l2 with
    | nil => rfl
    | cons y t => simp [List.dropWhile_cons, h2 y rfl]
  | cons x t ih =>
    rw [List.cons_append, List.dropWhile_cons, if_pos (h1 x (List.mem_cons_self x t))]
    exact ih (fun z hz => h1 z (List.mem_cons_of_mem x hz))

theorem dropWhile_length_le {α} (p : α → Bool) (l : List α) :
    (l.dropWhile p).length ≤ l.length := by
  induction l with
  | nil => simp
  | cons a t ih =>
    rw [List.dropWhile_cons]
    split
    · exact Nat.le_trans ih (by simp)
    · simp

theorem apxm_tokenizeFuel_mono :
    ∀ (f g : Nat) (cs : List Char), cs.length ≤ f → cs.length ≤ g →
      apxm.tokenizeFuel f cs = apxm.tokenizeFuel g cs := by
  intro f
  induction f with
  | zero =>
    intro g cs hf _
    have : cs = [] := List.length_eq_zero.mp (Nat.le_zero.mp hf)
    subst this
    cases g <;> rfl
  | succ f ih =>
    intro g cs hf hg
    cases cs with
    | nil => cases g <;> rfl
    | cons c rest =>
      cases g with
      | zero => exact absurd hg (by simp)
      | succ g' =>
        have hf' : rest.length ≤ f := by simp only [List.length_cons] at hf; omega
        have hg' : rest.length ≤ g' := by simp only [List.length_cons] at hg; omega
        simp only [apxm.tokenizeFuel]
        by_cases hws : isWsChar c = true
        · rw [if_pos hws, if_pos hws]
          exact ih g' rest hf' hg'
        · rw [if_neg hws, if_neg hws]
          by_cases hid : isIdHeadChar c = true
          · rw [if_pos hid, if_pos hid]
            congr 1
            exact ih g' _ (Nat.le_trans (dropWhile_length_le isIdChar rest) hf')
              (Nat.le_trans (dropWhile_length_le isIdChar rest) hg')
          · rw [if_neg hid, if_neg hid]
            congr 1
            exact ih g' rest hf' hg'

theorem apxm_tokenizeL_cons_ws {c : Char} (h : isWsChar c = true) (cs : List Char) :
    apxm.tokenizeL (c :: cs) = apxm.tokenizeL cs := by
  simp only [apxm.tokenizeL, List.length_cons, apxm.tokenizeFuel, h, if_true]

theorem apxm_tokenizeL_cons_lit {c : Char} (h1 : isWsChar c = false)
    (h2 : isIdHeadChar c = false) (cs : List Char) :
    apxm.tokenizeL (c :: cs) = apxm.litToken c :: apxm.tokenizeL cs := by
  simp only [apxm.tokenizeL, List.length_cons, apxm.tokenizeFuel]
  rw [if_neg (by simp [h1]), if_neg (by simp [h2])]

theorem head_not_idChar {c : Char} (h : isIdChar c = false) (l : List Char) :
    ∀ y, (c :: l).head? = some y → isIdChar y = false := by
  intro y hy
  simp only [List.head?_cons, Option.some.injEq] at hy
  subst hy
  exact h

theorem validIdChars_of_validId {s : String} (h : validId s = true) :
    validIdChars s = true := by
  simp only [validId, Bool.and_eq_true] at h
  exact h.1

theorem keywordOrText_of_validId {s : String} (h : validId s = true) :
    apxm.keywordOrText s = .Text s := by
  simp only [validId, Bool.and_eq_true, Bool.not_eq_true', Bool.or_eq_false_iff,
    beq_eq_false_iff_ne] at h
  obtain ⟨-, ⟨⟨h1, h2⟩, h3⟩⟩ := h
  simp [apxm.keywordOrText, h1, h2, h3]

theorem apxm_tokenizeL_word (w : String) (hw : validIdChars w = true) (cs : List Char)
    (hcs : ∀ y, cs.head? = some y → isIdChar y = false) :
    apxm.tokenizeL (w.data ++ cs) = apxm.keywordOrText w :: apxm.tokenizeL cs := by
  cases w with
  | mk d =>
    cases d with
    | nil => exact absurd hw (by simp [validIdChars])
    | cons c t =>
      simp only [validIdChars, Bool.and_eq_true] at hw
      obtain ⟨hhead, htail⟩ := hw
      have htail' : ∀ x ∈ t, isIdChar x = true := List.all_eq_true.mp htail
      show apxm.tokenizeL ((c :: t) ++ cs) = _
      rw [List.cons_append]
      simp only [apxm.tokenizeL, List.length_cons, apxm.tokenizeFuel]
      rw [if_neg (by simp [ws_false_of_idHead hhead]), if_pos hhead]
      rw [takeWhile_append_eq isIdChar t cs htail' hcs,
        dropWhile_append_eq isIdChar t cs htail' hcs]
      congr 1
      exact apxm_tokenizeFuel_mono _ _ cs (by simp) (Nat.le_refl _)

theorem tokenizeL_attChain (atts : List (String × String))
    (hatts : ∀ ft ∈ atts, validId ft.1 = true ∧ validId ft.2 = true) :
    apxm.tokenizeL ((renderAttChain atts).data ++ ['.']) =
      attChainTokens atts ++ [apxm.Token.Period] := by
  induction atts with
  | nil =>
    show apxm.tokenizeL (("" : String).data ++ ['.']) = _
    rw [show ("" : String).data = [] from rfl, List.nil_append]
    rw [apxm_tokenizeL_cons_lit (by decide) (by decide)]
    rfl
  | cons ft rest ih =>
    have hf := (hatts ft (List.mem_cons_self ft rest)).1
    have ht := (hatts ft (List.mem_cons_self ft rest)).2
    have ih' := ih (fun x hx => hatts x (List.mem_cons_of_mem ft hx))
    have hdata : (renderAttChain (ft :: rest)).data ++ ['.'] =
        ':' :: ("att".data ++ ('(' :: (ft.1.data ++ (',' :: (ft.2.data ++
          (')' :: ((renderAttChain rest).data ++ ['.']))))))) := by
      show (renderAttChainItem ft ++ renderAttChain rest).data ++ ['.'] = _
      simp only [renderAttChainItem, String.data_append, List.append_assoc,
        show (":att(" : String).data = [':', 'a', 't', 't', '('] from rfl,
        show ("," : String).data = [','] from rfl,
        show (")" : String).data = [')'] from rfl,
        show ("att" : String).data = ['a', 't', 't'] from rfl,
        List.cons_append, List.nil_append]
    rw [hdata]
    rw [apxm_tokenizeL_cons_lit (by decide) (by decide)]
    rw [apxm_tokenizeL_word "att" (by decide) _ (head_not_idChar (by decide) _)]
    rw [apxm_tokenizeL_cons_lit (by decide) (by decide)]
    rw [apxm_tokenizeL_word ft.1 (validIdChars_of_validId hf) _
      (head_not_idChar (by decide) _)]
    rw [apxm_tokenizeL_cons_lit (by decide) (by decide)]
    rw [apxm_tokenizeL_word ft.2 (validIdChars_of_validId ht) _
      (head_not_idChar (by decide) _)]
    rw [apxm_tokenizeL_cons_lit (by decide) (by decide)]
    rw [ih']
    rw [keywordOrText_of_validId hf, keywordOrText_of_validId ht]
    rfl

theorem tokenizeL_enableArgChain (id : String) (atts : List (String × String))
    (hid : validId id = true)
    (hatts : ∀ ft ∈ atts, validId ft.1 = true ∧ validId ft.2 = true) :
    apxm.tokenizeL (renderEnableArgChain id atts).data =
      .Plus :: .Arg :: .LeftParen :: .Text id :: .RightParen ::
        (attChainTokens atts ++ [apxm.Token.Period]) := by
  have hdata : (renderEnableArgChain id atts).data =
      '+' :: ("arg".data ++ ('(' :: (id.data ++ (')' ::
        ((renderAttChain atts).data ++ ['.']))))) := by
    simp only [renderEnableArgChain, String.data_append, List.append_assoc,
      show ("+arg(" : String).data = ['+', 'a', 'r', 'g', '('] from rfl,
      show (")" : String).data = [')'] from rfl,
      show ("." : String).data = ['.'] from rfl,
      show ("arg" : String).data = ['a', 'r', 'g'] from rfl,
      List.cons_append, List.nil_append]
  rw [hdata]
  rw [apxm_tokenizeL_cons_lit (by decide) (by decide)]
  rw [apxm_tokenizeL_word "arg" (by decide) _ (head_not_idChar (by decide) _)]
  rw [apxm_tokenizeL_cons_lit (by decide) (by decide)]
  rw [apxm_tokenizeL_word id (validIdChars_of_validId hid) _
    (head_not_idChar (by decide) _)]
  rw [apxm_tokenizeL_cons_lit (by decide) (by decide)]
  rw [tokenizeL_attChain atts hatts]
  rw [keywordOrText_of_validId hid]
  rfl

theorem tokenizeL_disableArgLine (id : String) (hid : validId id = true) :
    apxm.tokenizeL (renderDisableArgLine id).data =
      [.Minus, .Arg, .LeftParen, .Text id, .RightParen, .Period] := by
  have hdata : (renderDisableArgLine id).data =
      '-' :: ("arg".data ++ ('(' :: (id.data ++ [')', '.']))) := by
    simp only [renderDisableArgLine, String.data_append, List.append_assoc,
      show ("-arg(" : String).data = ['-', 'a', 'r', 'g', '('] from rfl,
      show (")." : String).data = [')', '.'] from rfl,
      show ("arg" : String).data = ['a', 'r', 'g'] from rfl,
      List.cons_append, List.nil_append]
  rw [hdata]
  rw [apxm_tokenizeL_cons_lit (by decide) (by decide)]
  rw [apxm_tokenizeL_word "arg" (by decide) _ (head_not_idChar (by decide) _)]
  rw [apxm_tokenizeL_cons_lit (by decide) (by decide)]
  rw [apxm_tokenizeL_word id (validIdChars_of_validId hid) _
    (head_not_idChar (by decide) _)]
  rw [keywordOrText_of_validId hid]
  rfl

theorem tokenizeL_enableAttLine (f t : String) (hf : validId f = true)
    (ht : validId t = true) :
    apxm.tokenizeL (renderEnableAttLine f t).data =
      [.Plus, .Attack, .LeftParen, .Text f, .Comma, .Text t, .RightParen, .Period] := by
  have hdata : (renderEnableAttLine f t).data =
      '+' :: ("att".data ++ ('(' :: (f.data ++ (',' :: (t.data ++ [')', '.']))))) := by
    simp only [renderEnableAttLine, String.data_append, List.append_assoc,
      show ("+att(" : String).data = ['+', 'a', 't', 't', '('] from rfl,
      show ("," : String).data = [','] from rfl,
      show (")." : String).data = [')', '.'] from rfl,
      show ("att" : String).data = ['a', 't', 't'] from rfl,
      List.cons_append, List.nil_append]
  rw [hdata]
  rw [apxm_tokenizeL_cons_lit (by decide) (by decide)]
  rw [apxm_tokenizeL_word "att" (by decide) _ (head_not_idChar (by decide) _)]
  rw [apxm_tokenizeL_cons_lit (by decide) (by decide)]
  rw [apxm_tokenizeL_word f (validIdChars_of_validId hf) _
    (head_not_idChar (by decide) _)]
  rw [apxm_tokenizeL_cons_lit (by decide) (by decide)]
  rw [apxm_tokenizeL_word t (validIdChars_of_validId ht) _
    (head_not_idChar (by decide) _)]
  rw [keywordOrText_of_validId hf, keywordOrText_of_validId ht]
  rfl

theorem tokenizeL_disableAttLine (f t : String) (hf : validId f = true)
    (ht : validId t = true) :
    apxm.tokenizeL (renderDisableAttLine f t).data =
      [.Minus, .Attack, .LeftParen, .Text f, .Comma, .Text t, .RightParen, .Period] := by
  have hdata : (renderDisableAttLine f t).data =
      '-' :: ("att".data ++ ('(' :: (f.data ++ (',' :: (t.data ++ [')', '.']))))) := by
    simp only [renderDisableAttLine, String.data_append, List.append_assoc,
      show ("-att(" : String).data = ['-', 'a', 't', 't', '('] from rfl,
      show ("," : String).data = [','] from rfl,
      show (")." : String).data = [')', '.'] from rfl,
      show ("att" : String).data = ['a', 't', 't'] from rfl,
      List.cons_append, List.nil_append]
  rw [hdata]
  rw [apxm_tokenizeL_cons_lit (by decide) (by decide)]
  rw [apxm_tokenizeL_word "att" (by decide) _ (head_not_idChar (by decide) _)]
  rw [apxm_tokenizeL_cons_lit (by decide) (by decide)]
  rw [apxm_tokenizeL_word f (validIdChars_of_validId hf) _
    (head_not_idChar (by decide) _)]
  rw [apxm_tokenizeL_cons_lit (by decide) (by decide)]
  rw [apxm_tokenizeL_word t (validIdChars_of_validId ht) _
    (head_not_idChar (by decide) _)]
  rw [keywordOrText_of_validId hf, keywordOrText_of_validId ht]
  rfl

theorem attChainTokens_length (atts : List (String × String)) :
    (attChainTokens atts).length = 7 * atts.length := by
  induction atts with
  | nil => rfl
  | cons ft rest ih =>
    simp only [attChainTokens] at ih ⊢
    simp [List.flatMap_cons, ih]
    omega

theorem parse_line_loop_attChain (ad : apxm.AddDel) :
    ∀ (atts : List (String × String)) (fuel : Nat), atts.length + 1 ≤ fuel →
      apxm.parse_line_loop ad fuel (attChainTokens atts ++ [apxm.Token.Period]) =
        .ok (atts.map fun ft => ad.att { from_ := ft.1, to_ := ft.2, optional := false }) := by
  intro atts
  induction atts with
  | nil => intro fuel _; cases fuel <;> rfl
  | cons ft rest ih =>
    intro fuel hf
    cases fuel with
    | zero => exact absurd hf (by simp)
    | succ fu =>
      have hstep : apxm.parse_line_loop ad (fu + 1)
          (attChainTokens (ft :: rest) ++ [apxm.Token.Period]) =
          (apxm.parse_line_loop ad fu (attChainTokens rest ++ [apxm.Token.Period])) >>=
            (fun patches => Except.ok
              (ad.att { from_ := ft.1, to_ := ft.2, optional := false } :: patches)) := rfl
      rw [hstep, ih fu (by simp only [List.length_cons] at hf; omega)]
      rfl

theorem apxm_parse_line_enable_chain (id : String) (atts : List (String × String))
    (hid : validId id = true)
    (hatts : ∀ ft ∈ atts, validId ft.1 = true ∧ validId ft.2 = true) :
    apxm.parse_line (renderEnableArgChain id atts) =
      .ok (Patch.EnableArgument { id := id, optional := false } ::
        atts.map fun ft => Patch.EnableAttack { from_ := ft.1, to_ := ft.2, optional := false }) := by
  simp only [apxm.parse_line]
  rw [tokenizeL_enableArgChain id atts hid hatts]
  show (apxm.parse_line_loop .Add ((attChainTokens atts ++ [apxm.Token.Period]).length)
      (attChainTokens atts ++ [apxm.Token.Period])) >>=
      (fun patches => Except.ok
        (Patch.EnableArgument { id := id, optional := false } :: patches)) = _
  rw [parse_line_loop_attChain .Add atts _
    (by simp [List.length_append, attChainTokens_length]; omega)]
  rfl

theorem apxm_parse_line_disable_arg (id : String) (hid : validId id = true) :
    apxm.parse_line (renderDisableArgLine id) =
      .ok [Patch.DisableArgument { id := id, optional := false }] := by
  simp only [apxm.parse_line]
  rw [tokenizeL_disableArgLine id hid]
  rfl

theorem apxm_parse_line_enable_att (f t : String) (hf : validId f = true)
    (ht : validId t = true) :
    apxm.parse_line (renderEnableAttLine f t) =
      .ok [Patch.EnableAttack { from_ := f, to_ := t, optional := false }] := by
  simp only [apxm.parse_line]
  rw [tokenizeL_enableAttLine f t hf ht]
  rfl

theorem apxm_parse_line_disable_att (f t : String) (hf : validId f = true)
    (ht : validId t = true) :
    apxm.parse_line (renderDisableAttLine f t) =
      .ok [Patch.DisableAttack { from_ := f, to_ := t, optional := false }] := by
  simp only [apxm.parse_line]
  rw [tokenizeL_disableAttLine f t hf ht]
  rfl

/-- C8: parsing an explicit-format update line with leading `+` produces
Enable patches and leading `-` produces Disable patches, and a chain
`+arg(<id>):att(<from>,<to>):...` produces exactly one `EnableArgument` for
the id followed by one `EnableAttack` per listed attack, in the order written
on the line. -/
theorem C8_explicit_update_line_parsing (id f t : String)
    (atts : List (String × String))
    (hid : validId id = true) (hf : validId f = true) (ht : validId t = true)
    (hatts : ∀ ft ∈ atts, validId ft.1 = true ∧ validId ft.2 = true) :
    (apxm.parse_line (renderEnableArgChain id atts) =
      .ok (Patch.EnableArgument { id := id, optional := false } ::
        atts.map fun ft =>
          Patch.EnableAttack { from_ := ft.1, to_ := ft.2, optional := false })) ∧
    (apxm.parse_line (renderDisableArgLine id) =
      .ok [Patch.DisableArgument { id := id, optional := false }]) ∧
    (apxm.parse_line (renderEnableAttLine f t) =
      .ok [Patch.EnableAttack { from_ := f, to_ := t, optional := false }]) ∧
    (apxm.parse_line (renderDisableAttLine f t) =
      .ok [Patch.DisableAttack { from_ := f, to_ := t, optional := false }]) :=
  ⟨apxm_parse_line_enable_chain id atts hid hatts,
   apxm_parse_line_disable_arg id hid,
   apxm_parse_line_enable_att f t hf ht,
   apxm_parse_line_disable_att f t hf ht⟩

/-- Witness for C8 at the concrete id `x` and attack chain
`att(x,y):att(y,x)`. -/
theorem C8_explicit_update_line_parsing_witness :
    (apxm.parse_line (renderEnableArgChain "x" [("x", "y"), ("y", "x")]) =
      .ok [Patch.EnableArgument { id := "x", optional := false },
        Patch.EnableAttack { from_ := "x", to_ := "y", optional := false },
        Patch.EnableAttack { from_ := "y", to_ := "x", optional := false }]) ∧
    (apxm.parse_line (renderDisableArgLine "x") =
      .ok [Patch.DisableArgument { id := "x", optional := false }]) :=
  ⟨(C8_explicit_update_line_parsing "x" "y" "z" [("x", "y"), ("y", "x")]
      (by decide) (by decide) (by decide) (by decide)).1,
   (C8_explicit_update_line_parsing "x" "y" "z" [("x", "y"), ("y", "x")]
      (by decide) (by decide) (by decide) (by decide)).2.1⟩

theorem applyAll_append_ok (good : List Patch) :
    ∀ (af af1 : ArgumentationFramework) (more : List Patch),
      applyAll af good = (none, af1) →
      applyAll af (good ++ more) = applyAll af1 more := by
  induction good with
  | nil =>
    intro af af1 more h
    simp only [applyAll, Prod.mk.injEq] at h
    rw [List.nil_append, h.2]
  | cons p rest ih =>
    intro af af1 more h
    simp only [applyAll] at h
    rw [List.cons_append]
    simp only [applyAll]
    cases hp : af.apply_patch p with
    | ok af' =>
      rw [hp] at h
      exact ih af' af1 more h
    | error e =>
      rw [hp] at h
      exact absurd h (by simp)

/-- C9: `update` first parses the whole line — a parse failure applies no
patch at all and leaves the framework unchanged — then applies the parsed
patches strictly left to right, stopping at the first failing patch while
keeping every earlier patch of the line applied (no rollback); when all
patches succeed the full fold is applied. -/
theorem C9_update_left_to_right (af : ArgumentationFramework) (line : String) :
    (∀ e, parse_apxm_tgfm_patch_line line = .error e →
      af.update line = (some .Parser, af)) ∧
    (∀ (good : List Patch) (patch : Patch) (rest : List Patch)
        (af1 : ArgumentationFramework) (why : Error),
      parse_apxm_tgfm_patch_line line = .ok (good ++ patch :: rest) →
      applyAll af good = (none, af1) →
      af1.apply_patch patch = .error why →
      af.update line = (some why, af1)) ∧
    (∀ (ps : List Patch) (af2 : ArgumentationFramework),
      parse_apxm_tgfm_patch_line line = .ok ps →
      applyAll af ps = (none, af2) →
      af.update line = (none, af2)) := by
  refine ⟨?_, ?_, ?_⟩
  · intro e he
    simp [ArgumentationFramework.update, he]
  · intro good patch rest af1 why hp hgood hbad
    simp only [ArgumentationFramework.update, hp]
    rw [applyAll_append_ok good af af1 (patch :: rest) hgood]
    simp [applyAll, hbad]
  · intro ps af2 hp hall
    simp [ArgumentationFramework.update, hp, hall]

/-- Witness for C9 on the concrete framework `afC9` and the line
`+arg(a):att(a,b).`: the first patch stays applied, the second fails, the
line stops there. -/
theorem C9_update_left_to_right_witness :
    afC9.update "+arg(a):att(a,b)." = (some whyC9, afC9a) :=
  (C9_update_left_to_right afC9 "+arg(a):att(a,b).").2.1 [patchC9good] patchC9bad []
    afC9a whyC9 rfl rfl rfl

/-- Witness for the C10 amended theorem at the concrete model showing `"a"`
and the optional query argument `a`. -/
theorem C10_from_model_and_contains_witness :
    ((Extension.from_model { shown := [.str "a"] }).atoms.all
        fun b => !b.optional) = true ∧
    ((Extension.from_model { shown := [.str "a"] }).contains
        { id := "a", optional := true } = true ↔
      ∃ b ∈ (Extension.from_model { shown := [.str "a"] }).atoms, b.id = "a") :=
  ⟨by decide,
   (C10_from_model_and_contains { shown := [.str "a"] } { id := "a", optional := true }).2⟩

end Dasp
